import Mathlib

/-!
Verification development for a Binance-testnet trading bot repository.

The core under scrutiny is the indicator engine (`indicators.py`:
`TechnicalIndicators.calculate_KDJ`, `calculate_RSI`,
`calculate_support_resistance`) and the backtest engine (`backtester.py`:
`Backtester.run_backtest`, `check_entry_signal`, `check_exit_signal`,
`calculate_metrics`, `calculate_max_drawdown`).

The Python code computes over IEEE floating-point numbers via pandas/numpy,
where a division by zero silently produces `inf` or `NaN` and every
comparison against `NaN` is false.  We embed this arithmetic shallowly as
`EF`, rationals extended with `inf`, `ninf` and `nan`, with the IEEE special
values propagated exactly as numpy does (exact rational arithmetic stands in
for rounded binary arithmetic; none of the claims depends on rounding, only
on signs, comparisons and special-value propagation).
-/

/-- Extended rational mirroring IEEE float special values: a finite value,
positive infinity, negative infinity, or NaN. -/
inductive EF where
  | val (q : ℚ)
  | inf
  | ninf
  | nan
deriving DecidableEq

namespace EF

/-- IEEE negation. -/
def neg : EF → EF
  | val q => val (-q)
  | inf => ninf
  | ninf => inf
  | nan => nan

/-- IEEE addition: NaN propagates, `inf + ninf = nan`. -/
def add : EF → EF → EF
  | nan, _ => nan
  | _, nan => nan
  | val a, val b => val (a + b)
  | inf, ninf => nan
  | ninf, inf => nan
  | inf, _ => inf
  | _, inf => inf
  | ninf, _ => ninf
  | _, ninf => ninf

/-- IEEE subtraction. -/
def sub (a b : EF) : EF := add a (neg b)

/-- IEEE multiplication: NaN propagates, `0 * inf = nan`, signs multiply. -/
def mul : EF → EF → EF
  | nan, _ => nan
  | _, nan => nan
  | val a, val b => val (a * b)
  | val a, inf => if a = 0 then nan else if 0 < a then inf else ninf
  | inf, val a => if a = 0 then nan else if 0 < a then inf else ninf
  | val a, ninf => if a = 0 then nan else if 0 < a then ninf else inf
  | ninf, val a => if a = 0 then nan else if 0 < a then ninf else inf
  | inf, inf => inf
  | inf, ninf => ninf
  | ninf, inf => ninf
  | ninf, ninf => inf

/-- IEEE division: NaN propagates, `0/0 = nan`, `x/0 = ±inf` for `x ≠ 0`,
finite over infinite is `0`, infinite over infinite is `nan`. -/
def div : EF → EF → EF
  | nan, _ => nan
  | _, nan => nan
  | val a, val b =>
      if b = 0 then (if a = 0 then nan else if 0 < a then inf else ninf)
      else val (a / b)
  | val _, inf => val 0
  | val _, ninf => val 0
  | inf, val b => if 0 ≤ b then inf else ninf
  | ninf, val b => if 0 ≤ b then ninf else inf
  | inf, inf => nan
  | inf, ninf => nan
  | ninf, inf => nan
  | ninf, ninf => nan

/-- IEEE strict less-than: every comparison involving NaN is false. -/
def lt : EF → EF → Bool
  | val a, val b => decide (a < b)
  | val _, inf => true
  | ninf, val _ => true
  | ninf, inf => true
  | _, _ => false

/-- IEEE less-or-equal: every comparison involving NaN is false. -/
def le : EF → EF → Bool
  | nan, _ => false
  | _, nan => false
  | val a, val b => decide (a ≤ b)
  | _, inf => true
  | ninf, _ => true
  | inf, ninf => false
  | inf, val _ => false
  | val _, ninf => false

theorem lt_nan_right (a : EF) : lt a nan = false := by cases a <;> rfl

theorem lt_nan_left (a : EF) : lt nan a = false := by cases a <;> rfl

theorem add_nan_right (a : EF) : add a nan = nan := by cases a <;> rfl

theorem mul_val_nan (q : ℚ) : mul (val q) nan = nan := rfl

theorem sub_val_nan (q : ℚ) : sub (val q) nan = nan := rfl

theorem div_val_nan (q : ℚ) : div (val q) nan = nan := rfl

end EF

/-! ### Lists of rationals: rolling minima and maxima

pandas `Series.rolling(window=n).min()/.max()` over the prefix ending at
index `i` reduces the last `min (n, i+1)` entries. -/

/-- Minimum of a list of rationals (`0` on the empty list; every use below
is on a nonempty list, matching pandas `min_periods=1`). -/
def listMin : List ℚ → ℚ
  | [] => 0
  | x :: xs => xs.foldl min x

/-- Maximum of a list of rationals (`0` on the empty list). -/
def listMax : List ℚ → ℚ
  | [] => 0
  | x :: xs => xs.foldl max x

theorem foldl_min_le_init (l : List ℚ) (a : ℚ) : l.foldl min a ≤ a := by
  induction l generalizing a with
  | nil => exact le_refl a
  | cons x xs ih => exact le_trans (ih (min a x)) (min_le_left a x)

theorem foldl_min_le_mem {l : List ℚ} {x : ℚ} (a : ℚ) (hx : x ∈ l) :
    l.foldl min a ≤ x := by
  induction l generalizing a with
  | nil => cases hx
  | cons y ys ih =>
      rcases List.mem_cons.mp hx with h | h
      · subst h
        exact le_trans (foldl_min_le_init ys (min a x)) (min_le_right a x)
      · exact ih (min a y) h

theorem listMin_le_mem {l : List ℚ} {x : ℚ} (hx : x ∈ l) : listMin l ≤ x := by
  cases l with
  | nil => cases hx
  | cons y ys =>
      rcases List.mem_cons.mp hx with h | h
      · subst h; exact foldl_min_le_init ys x
      · exact foldl_min_le_mem y h

theorem init_le_foldl_max (l : List ℚ) (a : ℚ) : a ≤ l.foldl max a := by
  induction l generalizing a with
  | nil => exact le_refl a
  | cons x xs ih => exact le_trans (le_max_left a x) (ih (max a x))

theorem mem_le_foldl_max {l : List ℚ} {x : ℚ} (a : ℚ) (hx : x ∈ l) :
    x ≤ l.foldl max a := by
  induction l generalizing a with
  | nil => cases hx
  | cons y ys ih =>
      rcases List.mem_cons.mp hx with h | h
      · subst h
        exact le_trans (le_max_right a x) (init_le_foldl_max ys (max a x))
      · exact ih (max a y) h

theorem mem_le_listMax {l : List ℚ} {x : ℚ} (hx : x ∈ l) : x ≤ listMax l := by
  cases l with
  | nil => cases hx
  | cons y ys =>
      rcases List.mem_cons.mp hx with h | h
      · subst h; exact init_le_foldl_max ys x
      · exact mem_le_foldl_max y h

/-! ### Price bars -/

/-- One OHLCV price bar.  The Python `DataFrame` rows also carry
`timestamp`, `open` and `volume`; the modelled indicator and backtest
functions read only the `high`, `low` and `close` columns, so only those are
embedded. -/
structure Bar where
  high : ℚ
  low : ℚ
  close : ℚ
deriving DecidableEq

/-- The trailing window of at most `n` entries of `l` ending at index `i`:
pandas `rolling(window=n)` at position `i`. -/
def window (n : ℕ) (l : List ℚ) (i : ℕ) : List ℚ :=
  (l.take (i + 1)).drop (i + 1 - n)

/-- Close of bar `i` (`0` out of range; uses are in range). -/
def closeAt (bars : List Bar) (i : ℕ) : ℚ := ((bars.map Bar.close).getD i 0)

/-- `low.rolling(window=n, min_periods=1).min()` at index `i`
(`indicators.py` line 13). -/
def lowest_low (bars : List Bar) (n i : ℕ) : ℚ :=
  listMin (window n (bars.map Bar.low) i)

/-- `high.rolling(window=n, min_periods=1).max()` at index `i`
(`indicators.py` line 14). -/
def highest_high (bars : List Bar) (n i : ℕ) : ℚ :=
  listMax (window n (bars.map Bar.high) i)

/-- `rsv = (close - lowest_low) / (highest_high - lowest_low) * 100` at
index `i` (`indicators.py` line 15), in IEEE arithmetic: a degenerate
window (`highest_high = lowest_low`) makes the denominator zero and the
division silently yields `nan` (when the numerator is also zero) or `±inf`. -/
def rsv (bars : List Bar) (n i : ℕ) : EF :=
  EF.mul
    (EF.div (EF.val (closeAt bars i - lowest_low bars n i))
            (EF.val (highest_high bars n i - lowest_low bars n i)))
    (EF.val 100)

/-- The K line: `K[0] = 50`, `K[i] = (2/3)*K[i-1] + (1/3)*rsv[i]`
(`indicators.py` lines 17-24). -/
def kdjK (bars : List Bar) (n : ℕ) : ℕ → EF
  | 0 => EF.val 50
  | i + 1 =>
      EF.add (EF.mul (EF.val (2/3)) (kdjK bars n i))
             (EF.mul (EF.val (1/3)) (rsv bars n (i + 1)))

/-- The D line: `D[0] = 50`, `D[i] = (2/3)*D[i-1] + (1/3)*K[i]`
(`indicators.py` lines 17-24). -/
def kdjD (bars : List Bar) (n : ℕ) : ℕ → EF
  | 0 => EF.val 50
  | i + 1 =>
      EF.add (EF.mul (EF.val (2/3)) (kdjD bars n i))
             (EF.mul (EF.val (1/3)) (kdjK bars n (i + 1)))

/-- `calculate_KDJ` returns `(K.iloc[-1], D.iloc[-1])` for the default
window `n = 9`.  The source additionally returns
`trend_strength = |K - D| / (0.1 + J.rolling(5).std())`, whose rolling
sample standard deviation takes a floating-point square root with no exact
rational value; trend strength enters every claim only as an opaque input
to `check_entry_signal`, so its numeric computation is not embedded and the
backtest loop takes the per-bar indicator snapshot as a parameter. -/
def calculate_KDJ (bars : List Bar) : EF × EF :=
  (kdjK bars 9 (bars.length - 1), kdjD bars 9 (bars.length - 1))

/-! ### RSI -/

/-- `delta = close.diff()` guarded by `.where`: the gain series entry at
index `i` (`indicators.py` line 35).  At `i = 0` the diff is NaN and
`delta.where(delta > 0, 0)` replaces it by `0` since `NaN > 0` is false. -/
def gainAt (closes : List ℚ) (i : ℕ) : ℚ :=
  if i = 0 then 0
  else
    let d := closes.getD i 0 - closes.getD (i - 1) 0
    if 0 < d then d else 0

/-- The loss series entry at index `i`:
`(-delta.where(delta < 0, 0))` (`indicators.py` line 36). -/
def lossAt (closes : List ℚ) (i : ℕ) : ℚ :=
  if i = 0 then 0
  else
    let d := closes.getD i 0 - closes.getD (i - 1) 0
    if d < 0 then -d else 0

/-- `gain.rolling(window=period).mean()` at the last index: NaN when fewer
than `period` observations exist, else the mean over the last `period`
entries of the gain series. -/
def avg_gain (closes : List ℚ) (period : ℕ) : EF :=
  if closes.length < period then EF.nan
  else
    EF.val ((((List.range period).map
      (fun j => gainAt closes (closes.length - period + j))).sum) / (period : ℚ))

/-- `loss.rolling(window=period).mean()` at the last index. -/
def avg_loss (closes : List ℚ) (period : ℕ) : EF :=
  if closes.length < period then EF.nan
  else
    EF.val ((((List.range period).map
      (fun j => lossAt closes (closes.length - period + j))).sum) / (period : ℚ))

/-- `calculate_RSI` (`indicators.py` lines 32-40): `rs = gain / loss`,
`rsi = 100 - 100 / (1 + rs)`, returning the last entry, in IEEE
arithmetic.  When the average loss is zero and the average gain positive,
`rs = inf` and the result is `100`; when both averages are zero (a flat
window) `rs = 0/0 = nan` and the result is `nan`. -/
def calculate_RSI (bars : List Bar) (period : ℕ := 14) : EF :=
  let closes := bars.map Bar.close
  let rs := EF.div (avg_gain closes period) (avg_loss closes period)
  EF.sub (EF.val 100) (EF.div (EF.val 100) (EF.add (EF.val 1) rs))

/-! ### Support and resistance -/

/-- The defined (non-NaN) entries of `high.rolling(window=lookback).max()`:
pandas leaves the first `lookback - 1` positions NaN and `value_counts`
drops them, so the list collects the rolling maxima at indices
`lookback - 1, …, len - 1`. -/
def rolling_max_highs (bars : List Bar) (lookback : ℕ) : List ℚ :=
  (List.range (bars.length + 1 - lookback)).map
    (fun j => listMax (window lookback (bars.map Bar.high) (lookback - 1 + j)))

/-- The defined entries of `low.rolling(window=lookback).min()`. -/
def rolling_min_lows (bars : List Bar) (lookback : ℕ) : List ℚ :=
  (List.range (bars.length + 1 - lookback)).map
    (fun j => listMin (window lookback (bars.map Bar.low) (lookback - 1 + j)))

/-- `calculate_support_resistance` (`indicators.py` lines 58-69).
`highs.value_counts().sort_index().iloc[-1]` is the *occurrence count* of
the numerically largest distinct rolling-max value (value_counts indexes by
value; sort_index orders by value; iloc[-1] reads the count stored at the
largest value), and `lows.value_counts().sort_index().iloc[0]` the count at
the smallest rolling-min value.  The function therefore returns a pair of
counts, not a pair of price levels.  The unused `threshold` parameter and
the dead `price_range` local are omitted.  With fewer than `lookback` bars
pandas raises IndexError on the empty counts; the model returns `(0, 0)`
there and every claim supplies at least `lookback` bars. -/
def calculate_support_resistance (bars : List Bar) (lookback : ℕ := 20) : ℚ × ℚ :=
  let highs := rolling_max_highs bars lookback
  let lows := rolling_min_lows bars lookback
  let resistance : ℚ := (highs.count (listMax highs) : ℕ)
  let support : ℚ := (lows.count (listMin lows) : ℕ)
  (support, resistance)

/-! ### Backtest engine data model -/

/-- The three strategy parameters read by the backtest
(`strategy_config['min_trend_strength' | 'stop_loss' | 'profit_target']`). -/
structure StrategyConfig where
  min_trend_strength : ℚ
  stop_loss : ℚ
  profit_target : ℚ
deriving DecidableEq

/-- Position side (`position['side']`). -/
inductive Side where
  | long
  | short
deriving DecidableEq

/-- An open position (spec section 3: side, entryPrice, entryTime, size;
the entry time is the bar index). -/
structure Position where
  side : Side
  entry_price : ℚ
  size : ℚ
  entry_index : ℕ
deriving DecidableEq

/-- A completed trade appended to `trades_history`; the fields read by
`calculate_metrics`, `calculate_max_drawdown` and the Sharpe computation
are `profit`, `balance_before` and `balance_after`. -/
structure Trade where
  side : Side
  entry_price : ℚ
  exit_price : ℚ
  profit : ℚ
  balance_before : ℚ
  balance_after : ℚ
deriving DecidableEq

/-- The per-bar indicator values `run_backtest` feeds to the signal checks:
`k, d, trend_strength` from `calculate_KDJ`, `rsi` from `calculate_RSI`,
`ma, upper_bb, lower_bb` from `calculate_bollinger_bands`. -/
structure IndicatorSnapshot where
  k : EF
  d : EF
  rsi : EF
  ma : EF
  upper_bb : EF
  lower_bb : EF
  trend_strength : EF
deriving DecidableEq

/-- The mutable `Backtester` state: `self.balance`, `self.positions`,
`self.trades_history`. -/
structure BTState where
  balance : ℚ
  positions : List Position
  trades_history : List Trade
deriving DecidableEq

/-- A fresh `Backtester`: empty positions and ledger. -/
def initialState (initial_balance : ℚ) : BTState :=
  { balance := initial_balance, positions := [], trades_history := [] }

/-! ### Signal checks (`backtester.py`) -/

/-- The long-entry conjunction of `check_entry_signal` (`backtester.py`
lines 91-96).  Python `a > b` over floats is `EF.lt b a`: false whenever
either side is NaN. -/
def is_long_entry (k d rsi price ma lower_bb trend_strength : EF)
    (config : StrategyConfig) : Bool :=
  EF.lt d k && EF.lt rsi (EF.val 30) && EF.lt ma price &&
    EF.lt (EF.val config.min_trend_strength) trend_strength &&
    EF.lt price lower_bb

/-- The short-entry conjunction of `check_entry_signal` (`backtester.py`
lines 99-104). -/
def is_short_entry (k d rsi price ma upper_bb trend_strength : EF)
    (config : StrategyConfig) : Bool :=
  EF.lt k d && EF.lt (EF.val 70) rsi && EF.lt price ma &&
    EF.lt (EF.val config.min_trend_strength) trend_strength &&
    EF.lt upper_bb price

/-- `check_entry_signal` (`backtester.py` lines 86-106): two guarded
returns of `True`, long conditions first, then `False`. -/
def check_entry_signal (k d rsi price ma upper_bb lower_bb trend_strength : EF)
    (config : StrategyConfig) : Bool :=
  if EF.lt d k && EF.lt rsi (EF.val 30) && EF.lt ma price &&
      EF.lt (EF.val config.min_trend_strength) trend_strength &&
      EF.lt price lower_bb then true
  else if EF.lt k d && EF.lt (EF.val 70) rsi && EF.lt price ma &&
      EF.lt (EF.val config.min_trend_strength) trend_strength &&
      EF.lt upper_bb price then true
  else false

/-- `check_exit_signal` (`backtester.py` lines 108-129): for the position's
side, first the stop-loss comparison, then the take-profit comparison,
each an early `return True`; otherwise `False`.  The current price is
`current_data['close'].iloc[-1]`, a finite data value, so it and the entry
price are compared as rationals. -/
def check_exit_signal (position : Position) (current_price : ℚ)
    (config : StrategyConfig) : Bool :=
  if position.side = Side.long then
    if current_price ≤ position.entry_price * (1 - config.stop_loss) then true
    else if position.entry_price * (1 + config.profit_target) ≤ current_price then true
    else false
  else
    if position.entry_price * (1 + config.stop_loss) ≤ current_price then true
    else if current_price ≤ position.entry_price * (1 - config.profit_target) then true
    else false

/-! ### Position lifecycle (modelled from the spec) -/

/-- Modelled from the spec: `open_position` is called by
`Backtester.run_backtest` (`backtester.py` line 77) but its definition is
missing from the repository.  Spec section 4.3: the `Flat` to `InPosition`
transition records a new `Position` at the current bar's close price;
section 3 gives `Position` the fields side, entryPrice, entryTime and
size.  The side is long exactly when the long-entry conjunction fired
(short otherwise, since `check_entry_signal` returned true); the entry
time is the bar index; the size — which the spec does not fix for the
backtest — is one unit, so a trade's profit is exactly the
direction-adjusted price delta. -/
def open_position (st : BTState) (price : ℚ) (i : ℕ) (isLong : Bool) : BTState :=
  { st with
      positions := st.positions ++
        [{ side := if isLong then Side.long else Side.short,
           entry_price := price, size := 1, entry_index := i }] }

/-- Modelled from the spec: `close_position` is called by
`Backtester.run_backtest` (`backtester.py` line 82) but its definition is
missing from the repository.  Spec section 4.3: the `InPosition` to `Flat`
transition destroys the open position, appends a `Trade` whose profit is
the signed price delta times the size (direction-adjusted for long/short),
and updates the account balance; spec section 3 records
balanceBefore/balanceAfter on the trade.  The open position is read from
the end of the list, matching `self.positions[-1]` at the call site of
`check_exit_signal`. -/
def close_position (st : BTState) (price : ℚ) : BTState :=
  match st.positions.getLast? with
  | none => st
  | some position =>
      let profit := (if position.side = Side.long
                     then price - position.entry_price
                     else position.entry_price - price) * position.size
      { balance := st.balance + profit,
        positions := [],
        trades_history := st.trades_history ++
          [{ side := position.side, entry_price := position.entry_price,
             exit_price := price, profit := profit,
             balance_before := st.balance,
             balance_after := st.balance + profit }] }

/-! ### The backtest loop -/

/-- `current_data['close'].iloc[-1]`: the close of the last bar of a
prefix. -/
def lastClose (bars : List Bar) : ℚ := ((bars.map Bar.close).getLast?).getD 0

/-- One iteration of the `run_backtest` loop (`backtester.py` lines 64-82)
at bar index `i`: with the indicator snapshot `snap` computed on the prefix
ending at bar `i`, the entry signal is checked only when no position is
open, and the exit signal (against `self.positions[-1]`) only when one
is. -/
def stepBar (config : StrategyConfig) (bars : List Bar) (i : ℕ)
    (snap : IndicatorSnapshot) (st : BTState) : BTState :=
  let price := lastClose (bars.take (i + 1))
  match st.positions with
  | [] =>
      if check_entry_signal snap.k snap.d snap.rsi (EF.val price) snap.ma
          snap.upper_bb snap.lower_bb snap.trend_strength config then
        open_position st price i
          (is_long_entry snap.k snap.d snap.rsi (EF.val price) snap.ma
            snap.lower_bb snap.trend_strength config)
      else st
  | p :: ps =>
      if check_exit_signal ((p :: ps).getLast (List.cons_ne_nil p ps))
          price config then
        close_position st price
      else st

/-- The backtester state after the first `m` loop iterations. -/
def runSteps (config : StrategyConfig) (snapFn : List Bar → IndicatorSnapshot)
    (bars : List Bar) (initial_balance : ℚ) : ℕ → BTState
  | 0 => initialState initial_balance
  | m + 1 =>
      stepBar config bars m (snapFn (bars.take (m + 1)))
        (runSteps config snapFn bars initial_balance m)

/-- `run_backtest` (`backtester.py` lines 62-84): `for i in range(len(df)-1)`
visits every bar except the last.  `snapFn` produces the per-bar
`IndicatorSnapshot`; the source computes it by calling `calculate_KDJ`,
`calculate_RSI` and `calculate_bollinger_bands` on the prefix, and since
the Bollinger standard deviation and the trend strength take a
floating-point square root with no exact rational value, the snapshot
computation is kept as a parameter of the loop — the numeric indicator
claims are settled against the individual indicator definitions above. -/
def run_backtest (config : StrategyConfig) (snapFn : List Bar → IndicatorSnapshot)
    (bars : List Bar) (initial_balance : ℚ) : BTState :=
  runSteps config snapFn bars initial_balance (bars.length - 1)

/-! ### Metrics -/

/-- The loop of `calculate_max_drawdown` (`backtester.py` lines 42-47): for
each balance in order, raise the peak if the balance exceeds it, then fold
`(peak - balance) / peak` into the running maximum. -/
def drawdownLoop : List ℚ → ℚ → ℚ → ℚ
  | [], _, max_drawdown => max_drawdown
  | b :: rest, peak, max_drawdown =>
      let peak2 := if peak < b then b else peak
      drawdownLoop rest peak2 (max max_drawdown ((peak2 - b) / peak2))

/-- `calculate_max_drawdown` (`backtester.py` lines 37-49): the balance
history is the `balance_after` of each recorded trade, the peak starts at
the first balance and the running maximum at `0`.  (On an empty history the
source would raise IndexError reading `balance_history[0]`; it is only
reached with a nonempty ledger, and the model starts the peak at `0`
there.) -/
def calculate_max_drawdown (trades_history : List Trade) : ℚ :=
  let balance_history := trades_history.map Trade.balance_after
  drawdownLoop balance_history (balance_history.headD 0) 0

/-- The record built by `calculate_metrics` for a nonempty ledger.  The
source also stores a Sharpe entry computed with `np.sqrt(252)`, an
irrational constant with no exact rational embedding; no claim concerns it
and it is omitted from the record. -/
structure Metrics where
  total_trades : ℕ
  winning_trades : ℕ
  losing_trades : ℕ
  win_rate : ℚ
  average_profit : ℚ
  max_drawdown : ℚ
  final_balance : ℚ
deriving DecidableEq

/-- `calculate_metrics` (`backtester.py` lines 16-35): on an empty trade
ledger the source returns the empty dict `{}` — a report with no fields at
all — rendered here as `none`.  Otherwise each field is computed as in the
source; the `if self.trades_history else 0` guard on `win_rate` is
unreachable because the empty case has already returned. -/
def calculate_metrics (trades_history : List Trade) (balance : ℚ) : Option Metrics :=
  if trades_history = [] then none
  else
    let profits := trades_history.map Trade.profit
    some
      { total_trades := trades_history.length,
        winning_trades := (profits.filter (fun p => decide (0 < p))).length,
        losing_trades := (profits.filter (fun p => decide (p < 0))).length,
        win_rate := ((profits.filter (fun p => decide (0 < p))).length : ℚ) /
          (trades_history.length : ℚ),
        average_profit := profits.sum / (profits.length : ℚ),
        max_drawdown := calculate_max_drawdown trades_history,
        final_balance := balance }

/-! ### Spec-side condition definitions

These follow the spec's words (sections 4.2 and 8) and are compared with
the source-derived `check_entry_signal` / `check_exit_signal` in the
refinement parts of the claims. -/

/-- The spec's long-entry condition: `K > D ∧ RSI < 30 ∧ price > MA ∧
trendStrength > minTrendStrength ∧ price < lowerBB`, with IEEE
comparisons. -/
def spec_long_entry (k d rsi price ma lower_bb trend_strength : EF)
    (config : StrategyConfig) : Prop :=
  EF.lt d k = true ∧ EF.lt rsi (EF.val 30) = true ∧ EF.lt ma price = true ∧
    EF.lt (EF.val config.min_trend_strength) trend_strength = true ∧
    EF.lt price lower_bb = true

/-- The spec's short-entry condition: `K < D ∧ RSI > 70 ∧ price < MA ∧
trendStrength > minTrendStrength ∧ price > upperBB`. -/
def spec_short_entry (k d rsi price ma upper_bb trend_strength : EF)
    (config : StrategyConfig) : Prop :=
  EF.lt k d = true ∧ EF.lt (EF.val 70) rsi = true ∧ EF.lt price ma = true ∧
    EF.lt (EF.val config.min_trend_strength) trend_strength = true ∧
    EF.lt upper_bb price = true

/-- The spec's stop-loss condition: the adverse move from the entry price
reaches the stop-loss fraction — for a long position the close is at or
below `entry * (1 - stopLossFraction)`, for a short at or above
`entry * (1 + stopLossFraction)`. -/
def spec_stop_loss_hit (position : Position) (price : ℚ)
    (config : StrategyConfig) : Prop :=
  match position.side with
  | Side.long => price ≤ position.entry_price * (1 - config.stop_loss)
  | Side.short => position.entry_price * (1 + config.stop_loss) ≤ price

/-- The spec's take-profit condition: the favorable move from the entry
price reaches the profit-target fraction. -/
def spec_take_profit_hit (position : Position) (price : ℚ)
    (config : StrategyConfig) : Prop :=
  match position.side with
  | Side.long => position.entry_price * (1 + config.profit_target) ≤ price
  | Side.short => price ≤ position.entry_price * (1 - config.profit_target)

/-! ### Concrete inputs for the scenarios -/

/-- A flat bar, `high = low = close = 100` (spec Scenario A). -/
def bar100 : Bar := { high := 100, low := 100, close := 100 }

/-- Scenario A's flat series: 30 bars, every close equal to 100. -/
def flat30 : List Bar := List.replicate 30 bar100

/-- A flat 20-bar series: exactly enough bars for the default
support/resistance lookback. -/
def flat20 : List Bar := List.replicate 20 bar100

/-- A flat 10-bar series: every KDJ high/low window is degenerate. -/
def flat10 : List Bar := List.replicate 10 bar100

/-- Fifteen strictly rising bars: every close delta is `+1`, so the RSI
average loss is zero and the average gain positive. -/
def up15 : List Bar :=
  (List.range 15).map (fun i => { high := (i : ℚ) + 2, low := (i : ℚ), close := (i : ℚ) + 1 })

/-- A two-bar valid series whose KDJ windows are non-degenerate. -/
def demo2 : List Bar :=
  [{ high := 2, low := 0, close := 1 }, { high := 2, low := 0, close := 1 }]

/-- OHLC validity as far as the modelled functions read it:
`low ≤ close ≤ high` on every bar. -/
def validBars (bars : List Bar) : Prop :=
  ∀ b ∈ bars, b.low ≤ b.close ∧ b.close ≤ b.high

/-- Every KDJ rolling high/low window up to `bars.length` is
non-degenerate. -/
def nondegenerate (bars : List Bar) (n : ℕ) : Prop :=
  ∀ i, i < bars.length → lowest_low bars n i < highest_high bars n i

/-- Membership of `x` in `[0, 100]` for an IEEE value: it is a finite
rational in range (NaN and the infinities are not in any range). -/
def inRange100 (x : EF) : Prop := ∃ q, x = EF.val q ∧ 0 ≤ q ∧ q ≤ 100

/-- On the flat 30-bar series the RSI average gain and average loss are
both zero, `rs = 0/0` is NaN and `calculate_RSI` returns NaN. -/
theorem rsi_flat30_eq_nan : calculate_RSI flat30 = EF.nan := by
  norm_num [calculate_RSI, avg_gain, avg_loss, gainAt, lossAt, flat30, bar100,
    List.replicate, List.range_succ, EF.div, EF.add, EF.sub, EF.neg]

/-- On a flat series every KDJ window is degenerate, `rsv = 0/0` is NaN
and both smoothed lines end NaN. -/
theorem kdj_flat10_eq_nan : calculate_KDJ flat10 = (EF.nan, EF.nan) := by
  norm_num [calculate_KDJ, kdjK, kdjD, rsv, closeAt, lowest_low, highest_high,
    window, listMin, listMax, flat10, bar100, List.replicate,
    EF.div, EF.add, EF.mul, EF.sub, EF.neg]

/-! ### Claims C5, C6, C9, C10 -/

/-- C5: the claim says the RSV computation is guarded against a degenerate
rolling window; in the source it is not.  On a flat series the window at
index 9 has `highest_high = lowest_low`, the division is `0/0`, RSV is NaN
and both KDJ lines end NaN — the silent division the claim rules out. -/
theorem C5_unguarded_rsv_is_nan_on_degenerate_window :
    highest_high flat10 9 9 = lowest_low flat10 9 9
    ∧ rsv flat10 9 9 = EF.nan
    ∧ calculate_KDJ flat10 = (EF.nan, EF.nan) := by
  refine ⟨?_, ?_, kdj_flat10_eq_nan⟩
  · norm_num [highest_high, lowest_low, window, listMin, listMax, flat10,
      bar100, List.replicate]
  · norm_num [rsv, closeAt, lowest_low, highest_high, window, listMin,
      listMax, flat10, bar100, List.replicate, EF.div, EF.mul]

/-- C6: the claim (and the spec's Scenario A) requires RSI = 100 whenever
the average loss is zero; on the flat 30-bar series the average loss is
indeed zero, but the average gain is also zero, `rs = 0/0` is NaN and
`calculate_RSI` returns NaN, not 100. -/
theorem C6_rsi_on_flat_series_is_nan_not_100 :
    avg_loss (flat30.map Bar.close) 14 = EF.val 0
    ∧ avg_gain (flat30.map Bar.close) 14 = EF.val 0
    ∧ calculate_RSI flat30 = EF.nan
    ∧ EF.nan ≠ EF.val 100 := by
  refine ⟨?_, ?_, rsi_flat30_eq_nan, by simp⟩
  · norm_num [avg_loss, lossAt, flat30, bar100, List.replicate, List.range_succ]
  · norm_num [avg_gain, gainAt, flat30, bar100, List.replicate, List.range_succ]

/-- C9 counterexample: on an empty ledger `calculate_metrics` does not
return a report with `win_rate = 0` — it returns no report at all (the
empty dict), so no returned record carries any `win_rate`. -/
theorem C9_counterexample_no_winrate_field :
    ¬ ∃ m : Metrics, calculate_metrics [] 10000 = some m ∧ m.win_rate = 0 := by
  simp [calculate_metrics]

/-- C9 amended: on an empty trade ledger `calculate_metrics` returns the
empty report (every field absent, `win_rate` included) rather than failing
or dividing by zero. -/
theorem C9_empty_ledger_gives_empty_report :
    ∀ balance : ℚ, calculate_metrics [] balance = none := by
  intro balance
  simp [calculate_metrics]

/-- C10: the claim says both returned values are price levels occurring in
the rolling extrema series; on a flat 20-bar series the rolling series are
`[100]` yet the function returns `(1, 1)` — the occurrence counts produced
by `value_counts` — and `1` is not a price level of either series. -/
theorem C10_support_resistance_returns_counts_not_levels :
    calculate_support_resistance flat20 = (1, 1)
    ∧ rolling_max_highs flat20 20 = [100]
    ∧ rolling_min_lows flat20 20 = [100]
    ∧ (1 : ℚ) ∉ rolling_max_highs flat20 20
    ∧ (1 : ℚ) ∉ rolling_min_lows flat20 20 := by
  refine ⟨?_, ?_, ?_, ?_, ?_⟩ <;>
    norm_num [calculate_support_resistance, rolling_max_highs,
      rolling_min_lows, flat20, bar100, List.replicate, List.range_succ,
      window, listMin, listMax]

/-! ### Claim C1: the position state machine -/

theorem close_position_positions (st : BTState) (price : ℚ) :
    (close_position st price).positions = [] ∨ close_position st price = st := by
  unfold close_position
  cases st.positions.getLast? with
  | none => exact Or.inr rfl
  | some position => exact Or.inl rfl

theorem stepBar_length_le_one (config : StrategyConfig) (bars : List Bar)
    (i : ℕ) (snap : IndicatorSnapshot) (st : BTState)
    (h : st.positions.length ≤ 1) :
    (stepBar config bars i snap st).positions.length ≤ 1 := by
  rcases st with ⟨bal, positions, trades⟩
  rcases positions with _ | ⟨p, ps⟩
  · simp only [stepBar]
    split
    · simp [open_position]
    · simp
  · simp only [stepBar]
    split
    · rcases close_position_positions ⟨bal, p :: ps, trades⟩
        (lastClose (bars.take (i + 1))) with h1 | h1
      · rw [h1]; simp
      · rw [h1]; exact h
    · exact h

theorem runSteps_length_le_one (config : StrategyConfig)
    (snapFn : List Bar → IndicatorSnapshot) (bars : List Bar)
    (initial_balance : ℚ) :
    ∀ m : ℕ, (runSteps config snapFn bars initial_balance m).positions.length ≤ 1
  | 0 => by simp [runSteps, initialState]
  | m + 1 =>
      stepBar_length_le_one config bars m (snapFn (bars.take (m + 1))) _
        (runSteps_length_le_one config snapFn bars initial_balance m)

theorem stepBar_flat_keeps_ledger (config : StrategyConfig) (bars : List Bar)
    (i : ℕ) (snap : IndicatorSnapshot) (st : BTState)
    (h : st.positions = []) :
    (stepBar config bars i snap st).trades_history = st.trades_history := by
  rcases st with ⟨bal, positions, trades⟩
  simp only at h
  subst h
  simp only [stepBar]
  split
  · simp [open_position]
  · rfl

theorem stepBar_in_position_never_opens (config : StrategyConfig)
    (bars : List Bar) (i : ℕ) (snap : IndicatorSnapshot) (st : BTState)
    (h : st.positions ≠ []) :
    (stepBar config bars i snap st).positions = st.positions
    ∨ (stepBar config bars i snap st).positions = [] := by
  rcases st with ⟨bal, positions, trades⟩
  rcases positions with _ | ⟨p, ps⟩
  · exact absurd rfl h
  · simp only [stepBar]
    split
    · rcases close_position_positions ⟨bal, p :: ps, trades⟩
        (lastClose (bars.take (i + 1))) with h1 | h1
      · exact Or.inr h1
      · rw [h1]; exact Or.inl rfl
    · exact Or.inl rfl

/-- C1: throughout any run of `run_backtest` at most one position is open
at any simulated time — the final state and the state after every loop
iteration hold at most one position — and the step checks the entry signal
only while flat (while a position is open the positions list is never
extended, only kept or emptied) and the exit signal only while a position
is open (while flat the trade ledger is untouched).  This holds for every
strategy configuration, indicator computation, bar series and initial
balance. -/
theorem C1_at_most_one_open_position :
    ∀ (config : StrategyConfig) (snapFn : List Bar → IndicatorSnapshot)
      (bars : List Bar) (initial_balance : ℚ),
      (run_backtest config snapFn bars initial_balance).positions.length ≤ 1
      ∧ (∀ m : ℕ,
          (runSteps config snapFn bars initial_balance m).positions.length ≤ 1)
      ∧ (∀ (snap : IndicatorSnapshot) (st : BTState) (i : ℕ),
          st.positions = [] →
          (stepBar config bars i snap st).trades_history = st.trades_history)
      ∧ (∀ (snap : IndicatorSnapshot) (st : BTState) (i : ℕ),
          st.positions ≠ [] →
          (stepBar config bars i snap st).positions = st.positions
          ∨ (stepBar config bars i snap st).positions = []) := by
  intro config snapFn bars initial_balance
  refine ⟨runSteps_length_le_one config snapFn bars initial_balance _,
    fun m => runSteps_length_le_one config snapFn bars initial_balance m,
    fun snap st i h => stepBar_flat_keeps_ledger config bars i snap st h,
    fun snap st i h => stepBar_in_position_never_opens config bars i snap st h⟩

/-- The strategy parameters of `config.py`: `MIN_TREND_STRENGTH = 0.5`,
`STOP_LOSS = 0.02`, `PROFIT_TARGET = 0.03`. -/
def cfg0 : StrategyConfig :=
  { min_trend_strength := 1/2, stop_loss := 1/50, profit_target := 3/100 }

/-- A snapshot as produced on a short prefix: K and D seeded at 50, the
window-gated indicators still NaN. -/
def snap0 : IndicatorSnapshot :=
  { k := EF.val 50, d := EF.val 50, rsi := EF.nan, ma := EF.nan,
    upper_bb := EF.nan, lower_bb := EF.nan, trend_strength := EF.nan }

/-- The constant snapshot computation used to instantiate the loop. -/
def snapFn0 : List Bar → IndicatorSnapshot := fun _ => snap0

/-- A state holding one open long position. -/
def posState : BTState :=
  { balance := 10000,
    positions := [{ side := Side.long, entry_price := 100, size := 1,
                    entry_index := 0 }],
    trades_history := [] }

theorem C1_witness :
    (run_backtest cfg0 snapFn0 flat10 10000).positions.length ≤ 1
    ∧ (stepBar cfg0 flat10 0 snap0 (initialState 10000)).trades_history =
        (initialState 10000).trades_history
    ∧ ((stepBar cfg0 flat10 0 snap0 posState).positions = posState.positions
       ∨ (stepBar cfg0 flat10 0 snap0 posState).positions = []) := by
  have h := C1_at_most_one_open_position cfg0 snapFn0 flat10 10000
  exact ⟨h.1, h.2.2.1 snap0 (initialState 10000) 0 rfl,
    h.2.2.2 snap0 posState 0 (by simp [posState])⟩

/-! ### Claim C2: the entry rule -/

theorem check_entry_signal_eq_or (k d rsi price ma upper_bb lower_bb trend_strength : EF)
    (config : StrategyConfig) :
    check_entry_signal k d rsi price ma upper_bb lower_bb trend_strength config
    = (is_long_entry k d rsi price ma lower_bb trend_strength config
       || is_short_entry k d rsi price ma upper_bb trend_strength config) := by
  unfold check_entry_signal is_long_entry is_short_entry
  split
  case isTrue h => rw [h]; rfl
  case isFalse h =>
    split
    case isTrue h2 =>
      simp only [Bool.not_eq_true] at h
      rw [h, h2]
      rfl
    case isFalse h2 =>
      simp only [Bool.not_eq_true] at h h2
      rw [h, h2]
      rfl

theorem check_entry_signal_iff (k d rsi price ma upper_bb lower_bb trend_strength : EF)
    (config : StrategyConfig) :
    check_entry_signal k d rsi price ma upper_bb lower_bb trend_strength config = true
    ↔ spec_long_entry k d rsi price ma lower_bb trend_strength config
      ∨ spec_short_entry k d rsi price ma upper_bb trend_strength config := by
  rw [check_entry_signal_eq_or, Bool.or_eq_true]
  unfold is_long_entry is_short_entry spec_long_entry spec_short_entry
  simp only [Bool.and_eq_true, and_assoc]

theorem stepBar_flat_entry (config : StrategyConfig) (bars : List Bar)
    (i : ℕ) (snap : IndicatorSnapshot) (st : BTState)
    (h : st.positions = []) :
    (check_entry_signal snap.k snap.d snap.rsi
        (EF.val (lastClose (bars.take (i + 1)))) snap.ma snap.upper_bb
        snap.lower_bb snap.trend_strength config = false →
      stepBar config bars i snap st = st)
    ∧ (check_entry_signal snap.k snap.d snap.rsi
        (EF.val (lastClose (bars.take (i + 1)))) snap.ma snap.upper_bb
        snap.lower_bb snap.trend_strength config = true →
      (stepBar config bars i snap st).positions =
        [{ side := if is_long_entry snap.k snap.d snap.rsi
              (EF.val (lastClose (bars.take (i + 1)))) snap.ma snap.lower_bb
              snap.trend_strength config then Side.long else Side.short,
           entry_price := lastClose (bars.take (i + 1)), size := 1,
           entry_index := i }]
      ∧ (stepBar config bars i snap st).balance = st.balance
      ∧ (stepBar config bars i snap st).trades_history = st.trades_history) := by
  rcases st with ⟨bal, positions, trades⟩
  simp only at h
  subst h
  constructor
  · intro hc
    simp [stepBar, hc]
  · intro hc
    simp [stepBar, hc, open_position]

/-- The Scenario C indicator snapshot: `K = 60 > D = 40`, `RSI = 25`,
`MA = 100`, `lowerBB = 96`, trend strength `0.8` (the upper band value is
not read by the long conditions). -/
def snapC : IndicatorSnapshot :=
  { k := EF.val 60, d := EF.val 40, rsi := EF.val 25, ma := EF.val 100,
    upper_bb := EF.val 104, lower_bb := EF.val 96,
    trend_strength := EF.val (4/5) }

/-- A series whose bar 25 closes at 95. -/
def barsC : List Bar := List.replicate 27 { high := 96, low := 94, close := 95 }

/-- C2 counterexample: for the Scenario C inputs the long conjunct
`price > MA` is false (95 < 100), so `check_entry_signal` returns false
and the engine stays flat at bar 25 — no long position with entry price 95
is opened, contradicting the claim's Scenario C sentence. -/
theorem C2_counterexample_scenC_opens_nothing :
    check_entry_signal (EF.val 60) (EF.val 40) (EF.val 25) (EF.val 95)
      (EF.val 100) (EF.val 104) (EF.val 96) (EF.val (4/5)) cfg0 = false
    ∧ (stepBar cfg0 barsC 25 snapC (initialState 10000)).positions = [] := by
  constructor
  · norm_num [check_entry_signal, EF.lt, cfg0]
  · norm_num [stepBar, check_entry_signal, EF.lt, cfg0, snapC, initialState,
      lastClose, barsC, List.replicate]

/-! ### Claim C3: the exit rule -/

theorem check_exit_signal_iff (position : Position) (price : ℚ)
    (config : StrategyConfig) :
    check_exit_signal position price config = true
    ↔ spec_stop_loss_hit position price config
      ∨ spec_take_profit_hit position price config := by
  rcases position with ⟨side, e, sz, idx⟩
  cases side <;>
    · simp only [check_exit_signal, spec_stop_loss_hit, spec_take_profit_hit]
      split_ifs <;> simp_all

theorem stepBar_in_position_exit (config : StrategyConfig) (bars : List Bar)
    (i : ℕ) (snap : IndicatorSnapshot) (st : BTState)
    (p : Position) (ps : List Position) (h : st.positions = p :: ps) :
    (check_exit_signal ((p :: ps).getLast (List.cons_ne_nil p ps))
        (lastClose (bars.take (i + 1))) config = false →
      stepBar config bars i snap st = st)
    ∧ (check_exit_signal ((p :: ps).getLast (List.cons_ne_nil p ps))
        (lastClose (bars.take (i + 1))) config = true →
      (stepBar config bars i snap st).positions = []
      ∧ (stepBar config bars i snap st).balance =
          st.balance + (if ((p :: ps).getLast (List.cons_ne_nil p ps)).side = Side.long
            then lastClose (bars.take (i + 1))
              - ((p :: ps).getLast (List.cons_ne_nil p ps)).entry_price
            else ((p :: ps).getLast (List.cons_ne_nil p ps)).entry_price
              - lastClose (bars.take (i + 1)))
            * ((p :: ps).getLast (List.cons_ne_nil p ps)).size
      ∧ (stepBar config bars i snap st).trades_history = st.trades_history ++
          [{ side := ((p :: ps).getLast (List.cons_ne_nil p ps)).side,
             entry_price := ((p :: ps).getLast (List.cons_ne_nil p ps)).entry_price,
             exit_price := lastClose (bars.take (i + 1)),
             profit := (if ((p :: ps).getLast (List.cons_ne_nil p ps)).side = Side.long
               then lastClose (bars.take (i + 1))
                 - ((p :: ps).getLast (List.cons_ne_nil p ps)).entry_price
               else ((p :: ps).getLast (List.cons_ne_nil p ps)).entry_price
                 - lastClose (bars.take (i + 1)))
               * ((p :: ps).getLast (List.cons_ne_nil p ps)).size,
             balance_before := st.balance,
             balance_after := st.balance +
               (if ((p :: ps).getLast (List.cons_ne_nil p ps)).side = Side.long
                 then lastClose (bars.take (i + 1))
                   - ((p :: ps).getLast (List.cons_ne_nil p ps)).entry_price
                 else ((p :: ps).getLast (List.cons_ne_nil p ps)).entry_price
                   - lastClose (bars.take (i + 1)))
                 * ((p :: ps).getLast (List.cons_ne_nil p ps)).size }]) := by
  rcases st with ⟨bal, positions, trades⟩
  simp only at h
  subst h
  constructor
  · intro hc
    simp [stepBar, hc]
  · intro hc
    simp [stepBar, hc, close_position, List.getLast?_eq_getLast]

/-- The trade profit of the spec (section 4.3): signed price delta times
size, direction-adjusted for long/short. -/
def exit_profit (position : Position) (price : ℚ) : ℚ :=
  (if position.side = Side.long then price - position.entry_price
   else position.entry_price - price) * position.size

/-- C2 (amended): when no position is open the engine opens one at the
current bar's close price exactly when `check_entry_signal` fires, and
`check_entry_signal` fires exactly on the spec's five-conjunct long or
short condition; but for the Scenario C inputs the long conjunct
`price > MA` fails (95 < 100), so no position is opened at bar 25 and the
engine stays flat. -/
theorem C2_entry_exactly_on_five_conjuncts :
    (∀ (k d rsi price ma upper_bb lower_bb trend_strength : EF)
      (config : StrategyConfig),
      check_entry_signal k d rsi price ma upper_bb lower_bb trend_strength
        config = true
      ↔ spec_long_entry k d rsi price ma lower_bb trend_strength config
        ∨ spec_short_entry k d rsi price ma upper_bb trend_strength config)
    ∧ (∀ (config : StrategyConfig) (bars : List Bar) (i : ℕ)
        (snap : IndicatorSnapshot) (st : BTState), st.positions = [] →
        (check_entry_signal snap.k snap.d snap.rsi
            (EF.val (lastClose (bars.take (i + 1)))) snap.ma snap.upper_bb
            snap.lower_bb snap.trend_strength config = false →
          stepBar config bars i snap st = st)
        ∧ (check_entry_signal snap.k snap.d snap.rsi
            (EF.val (lastClose (bars.take (i + 1)))) snap.ma snap.upper_bb
            snap.lower_bb snap.trend_strength config = true →
          (stepBar config bars i snap st).positions =
            [{ side := if is_long_entry snap.k snap.d snap.rsi
                  (EF.val (lastClose (bars.take (i + 1)))) snap.ma
                  snap.lower_bb snap.trend_strength config
                then Side.long else Side.short,
               entry_price := lastClose (bars.take (i + 1)), size := 1,
               entry_index := i }]
          ∧ (stepBar config bars i snap st).balance = st.balance
          ∧ (stepBar config bars i snap st).trades_history =
              st.trades_history))
    ∧ (check_entry_signal (EF.val 60) (EF.val 40) (EF.val 25) (EF.val 95)
        (EF.val 100) (EF.val 104) (EF.val 96) (EF.val (4/5)) cfg0 = false
       ∧ (stepBar cfg0 barsC 25 snapC (initialState 10000)).positions = []) := by
  refine ⟨check_entry_signal_iff,
    fun config bars i snap st h => stepBar_flat_entry config bars i snap st h,
    ?_, ?_⟩
  · norm_num [check_entry_signal, EF.lt, cfg0]
  · norm_num [stepBar, check_entry_signal, EF.lt, cfg0, snapC, initialState,
      lastClose, barsC, List.replicate]

/-- The Scenario C snapshot with the moving average below the price
(`MA = 90 < price = 95 < lowerBB = 96`), on which the long entry does
fire. -/
def snapW : IndicatorSnapshot :=
  { k := EF.val 60, d := EF.val 40, rsi := EF.val 25, ma := EF.val 90,
    upper_bb := EF.val 104, lower_bb := EF.val 96,
    trend_strength := EF.val (4/5) }

theorem C2_witness :
    (stepBar cfg0 barsC 25 snapW (initialState 10000)).positions =
      [{ side := Side.long, entry_price := 95, size := 1, entry_index := 25 }]
    ∧ (stepBar cfg0 barsC 25 snapW (initialState 10000)).trades_history = [] := by
  have h := (C2_entry_exactly_on_five_conjuncts.2.1 cfg0 barsC 25 snapW
    (initialState 10000) rfl).2
    (by norm_num [check_entry_signal, EF.lt, snapW, cfg0, lastClose, barsC,
      List.replicate])
  refine ⟨?_, ?_⟩
  · rw [h.1]
    norm_num [is_long_entry, EF.lt, snapW, cfg0, lastClose, barsC,
      List.replicate]
  · rw [h.2.2]
    rfl

/-- The Scenario D open position: long, entry price 100. -/
def posD : Position :=
  { side := Side.long, entry_price := 100, size := 1, entry_index := 0 }

/-- A backtester state holding the Scenario D position. -/
def stateD : BTState :=
  { balance := 10000, positions := [posD], trades_history := [] }

/-- A bar closing at 97.9 (Scenario D: a 2.1 per cent adverse move). -/
def barsD : List Bar := [{ high := 98, low := 97, close := 979/10 }]

/-- A bar closing at 103 (a 3 per cent favorable move from entry 100). -/
def barsT : List Bar := [{ high := 104, low := 102, close := 103 }]

/-- C3: while a position is open the engine closes it on the first bar
whose close trips the stop-loss or take-profit comparison —
`check_exit_signal` is true exactly when the spec's stop-loss condition or
its take-profit condition holds (so either alone is sufficient), a false
signal leaves the state untouched, and a true signal empties the positions,
appends exactly one trade with the direction-adjusted profit, and updates
the balance.  For Scenario D (long at 100, stop loss 0.02, close 97.9) the
position closes on that bar with a recorded loss of 2.1. -/
theorem C3_exit_on_stop_or_target :
    (∀ (position : Position) (price : ℚ) (config : StrategyConfig),
      check_exit_signal position price config = true
      ↔ spec_stop_loss_hit position price config
        ∨ spec_take_profit_hit position price config)
    ∧ (∀ (config : StrategyConfig) (bars : List Bar) (i : ℕ)
        (snap : IndicatorSnapshot) (st : BTState) (pos : Position),
        st.positions.getLast? = some pos →
        (check_exit_signal pos (lastClose (bars.take (i + 1))) config = false →
          stepBar config bars i snap st = st)
        ∧ (check_exit_signal pos (lastClose (bars.take (i + 1))) config = true →
          (stepBar config bars i snap st).positions = []
          ∧ (stepBar config bars i snap st).balance =
              st.balance + exit_profit pos (lastClose (bars.take (i + 1)))
          ∧ (stepBar config bars i snap st).trades_history =
              st.trades_history ++
              [{ side := pos.side, entry_price := pos.entry_price,
                 exit_price := lastClose (bars.take (i + 1)),
                 profit := exit_profit pos (lastClose (bars.take (i + 1))),
                 balance_before := st.balance,
                 balance_after := st.balance +
                   exit_profit pos (lastClose (bars.take (i + 1))) }]))
    ∧ (check_exit_signal posD (979/10) cfg0 = true
       ∧ (stepBar cfg0 barsD 0 snap0 stateD).positions = []
       ∧ (stepBar cfg0 barsD 0 snap0 stateD).trades_history =
           [{ side := Side.long, entry_price := 100, exit_price := 979/10,
              profit := -(21/10), balance_before := 10000,
              balance_after := 99979/10 }]
       ∧ (-(21/10) : ℚ) < 0) := by
  refine ⟨check_exit_signal_iff, ?_, ?_, ?_, ?_, by norm_num⟩
  · intro config bars i snap st pos hlast
    have hne : st.positions ≠ [] := by
      intro h0
      rw [h0] at hlast
      simp at hlast
    obtain ⟨p, ps, hp⟩ : ∃ p ps, st.positions = p :: ps := by
      cases hps : st.positions with
      | nil => exact absurd hps hne
      | cons p ps => exact ⟨p, ps, rfl⟩
    have hpos : (p :: ps).getLast (List.cons_ne_nil p ps) = pos := by
      rw [hp, List.getLast?_eq_getLast (p :: ps) (List.cons_ne_nil p ps)]
        at hlast
      exact Option.some.inj hlast
    have hstep := stepBar_in_position_exit config bars i snap st p ps hp
    rw [hpos] at hstep
    simpa only [exit_profit] using hstep
  · norm_num [check_exit_signal, posD, cfg0]
  · norm_num [stepBar, check_exit_signal, close_position, posD, stateD,
      barsD, cfg0, lastClose]
  · norm_num [stepBar, check_exit_signal, close_position, posD, stateD,
      barsD, cfg0, lastClose]

theorem C3_witness :
    (stepBar cfg0 barsT 0 snap0 stateD).positions = []
    ∧ (stepBar cfg0 barsT 0 snap0 stateD).balance = 10003 := by
  have h := (C3_exit_on_stop_or_target.2.1 cfg0 barsT 0 snap0 stateD posD rfl).2
    (by norm_num [check_exit_signal, posD, cfg0, lastClose, barsT])
  refine ⟨h.1, ?_⟩
  rw [h.2.1]
  norm_num [exit_profit, posD, stateD, lastClose, barsT]

/-! ### Claim C7: undefined indicator inputs -/

/-- C7 counterexample: with `lower_bb = NaN` but every argument the short
branch reads defined and short-satisfying (`K = 10 < D = 20`, `RSI = 80`,
`price = 90 < MA = 100`, `upperBB = 80 < price`, trend strength 1),
`check_entry_signal` returns true — a NaN indicator argument does not
always yield "no signal". -/
theorem C7_counterexample_nan_band_still_signals :
    check_entry_signal (EF.val 10) (EF.val 20) (EF.val 80) (EF.val 90)
      (EF.val 100) (EF.val 80) EF.nan (EF.val 1) cfg0 = true := by
  norm_num [check_entry_signal, EF.lt, cfg0]

/-- C7 (amended): `check_entry_signal` returns false whenever any of K, D,
RSI, price, MA or trend strength is NaN, or both Bollinger bands are NaN
(as when fewer bars exist than the Bollinger window requires, which makes
MA and both bands NaN together); only a NaN confined to the one band that
the firing side does not read fails to block a signal. -/
theorem C7_nan_inputs_give_no_signal :
    ∀ (k d rsi price ma upper_bb lower_bb trend_strength : EF)
      (config : StrategyConfig),
      (k = EF.nan ∨ d = EF.nan ∨ rsi = EF.nan ∨ price = EF.nan ∨ ma = EF.nan
        ∨ trend_strength = EF.nan
        ∨ (upper_bb = EF.nan ∧ lower_bb = EF.nan)) →
      check_entry_signal k d rsi price ma upper_bb lower_bb trend_strength
        config = false := by
  intro k d rsi price ma upper_bb lower_bb trend_strength config h
  rcases h with h | h | h | h | h | h | ⟨h1, h2⟩
  · subst h; simp [check_entry_signal, EF.lt_nan_left, EF.lt_nan_right]
  · subst h; simp [check_entry_signal, EF.lt_nan_left, EF.lt_nan_right]
  · subst h; simp [check_entry_signal, EF.lt_nan_left, EF.lt_nan_right]
  · subst h; simp [check_entry_signal, EF.lt_nan_left, EF.lt_nan_right]
  · subst h; simp [check_entry_signal, EF.lt_nan_left, EF.lt_nan_right]
  · subst h; simp [check_entry_signal, EF.lt_nan_left, EF.lt_nan_right]
  · subst h1; subst h2
    simp [check_entry_signal, EF.lt_nan_left, EF.lt_nan_right]

theorem C7_witness :
    check_entry_signal EF.nan (EF.val 40) (EF.val 25) (EF.val 95) (EF.val 90)
      (EF.val 104) (EF.val 96) (EF.val 1) cfg0 = false :=
  C7_nan_inputs_give_no_signal EF.nan (EF.val 40) (EF.val 25) (EF.val 95)
    (EF.val 90) (EF.val 104) (EF.val 96) (EF.val 1) cfg0 (Or.inl rfl)

/-! ### Claim C8: maximum drawdown -/

theorem drawdownLoop_nonneg :
    ∀ (l : List ℚ) (peak d : ℚ), 0 ≤ d → 0 ≤ drawdownLoop l peak d
  | [], _, _, hd => hd
  | b :: rest, peak, d, hd => by
      simp only [drawdownLoop]
      exact drawdownLoop_nonneg rest _ _ (le_trans hd (le_max_left _ _))

theorem drawdownLoop_chain :
    ∀ (l : List ℚ) (peak : ℚ), List.Chain (· ≤ ·) peak l →
      drawdownLoop l peak 0 = 0
  | [], _, _ => rfl
  | b :: rest, peak, h => by
      rcases List.chain_cons.mp h with ⟨hpb, hrest⟩
      simp only [drawdownLoop]
      have hpeak : (if peak < b then b else peak) = b := by
        split
        · rfl
        · next hnb => exact le_antisymm hpb (not_lt.mp hnb)
      rw [hpeak]
      have hz : (b - b) / b = 0 := by simp
      rw [hz, max_self]
      exact drawdownLoop_chain rest b hrest

/-- The spec's drawdown at index `i` of a balance history: the running
peak is the maximum of the first `i + 1` balances, and the drawdown is
`(peak - balance) / peak`. -/
def spec_drawdown_at (history : List ℚ) (i : ℕ) : ℚ :=
  (listMax (history.take (i + 1)) - history.getD i 0)
    / listMax (history.take (i + 1))

/-- The spec's maximum drawdown: the maximum of the per-index drawdowns,
`0` if the balance never dips below a prior peak. -/
def spec_max_drawdown (history : List ℚ) : ℚ :=
  ((List.range history.length).map (spec_drawdown_at history)).foldl max 0

theorem if_lt_eq_max (p b : ℚ) : (if p < b then b else p) = max p b := by
  split
  · next hlt => exact (max_eq_right (le_of_lt hlt)).symm
  · next hnb => exact (max_eq_left (not_lt.mp hnb)).symm

theorem drawdownLoop_eq_spec :
    ∀ (l : List ℚ) (p d : ℚ),
      drawdownLoop l p d =
        ((List.range l.length).map (fun i =>
          ((l.take (i + 1)).foldl max p - l.getD i 0)
            / (l.take (i + 1)).foldl max p)).foldl max d
  | [], _, _ => rfl
  | b :: rest, p, d => by
      simp only [drawdownLoop, List.length_cons, List.range_succ_eq_map,
        List.map_cons, List.foldl_cons, List.map_map]
      rw [if_lt_eq_max]
      have harg :
          ((List.range rest.length).map ((fun i =>
            (((b :: rest).take (i + 1)).foldl max p - (b :: rest).getD i 0)
              / ((b :: rest).take (i + 1)).foldl max p) ∘ Nat.succ))
          = (List.range rest.length).map (fun i =>
            ((rest.take (i + 1)).foldl max (max p b) - rest.getD i 0)
              / (rest.take (i + 1)).foldl max (max p b)) := by
        refine List.map_congr_left (fun i _ => ?_)
        simp [List.take_succ_cons, List.foldl_cons]
      rw [drawdownLoop_eq_spec rest (max p b) _, harg]
      simp [List.take_succ_cons, List.foldl_cons]

/-- The four Scenario B trades: post-trade balances
10000, 10500, 9800, 10200. -/
def tradesB : List Trade :=
  [{ side := Side.long, entry_price := 100, exit_price := 100, profit := 0,
     balance_before := 10000, balance_after := 10000 },
   { side := Side.long, entry_price := 100, exit_price := 105, profit := 500,
     balance_before := 10000, balance_after := 10500 },
   { side := Side.long, entry_price := 105, exit_price := 98, profit := -700,
     balance_before := 10500, balance_after := 9800 },
   { side := Side.long, entry_price := 98, exit_price := 102, profit := 400,
     balance_before := 9800, balance_after := 10200 }]

/-- Two trades with non-decreasing balances 10000, 10500. -/
def tradesUp : List Trade :=
  [{ side := Side.long, entry_price := 100, exit_price := 100, profit := 0,
     balance_before := 10000, balance_after := 10000 },
   { side := Side.long, entry_price := 100, exit_price := 105, profit := 500,
     balance_before := 10000, balance_after := 10500 }]

/-- C8: `calculate_max_drawdown` equals the spec's maximum over the
post-trade balance sequence of `(peak - balance) / peak` with `peak` the
running maximum of the balances seen so far; it is nonnegative for every
nonempty ledger; it is `0` whenever the balance history is non-decreasing;
and on the Scenario B balances 10000, 10500, 9800, 10200 it is
`(10500 - 9800) / 10500 = 1/15 ≈ 0.0667`. -/
theorem C8_max_drawdown :
    (∀ trades_history : List Trade,
      calculate_max_drawdown trades_history =
        spec_max_drawdown (trades_history.map Trade.balance_after))
    ∧ (∀ trades_history : List Trade, trades_history ≠ [] →
        0 ≤ calculate_max_drawdown trades_history)
    ∧ (∀ trades_history : List Trade,
        List.Chain' (· ≤ ·) (trades_history.map Trade.balance_after) →
        calculate_max_drawdown trades_history = 0)
    ∧ calculate_max_drawdown tradesB = 1/15
    ∧ (1/15 : ℚ) = (10500 - 9800) / 10500 := by
  refine ⟨?_, ?_, ?_, ?_, by norm_num⟩
  · intro trades_history
    unfold calculate_max_drawdown spec_max_drawdown
    rw [drawdownLoop_eq_spec]
    rcases trades_history.map Trade.balance_after with _ | ⟨b, rest⟩
    · rfl
    · refine congrArg (List.foldl max 0) (List.map_congr_left fun i _ => ?_)
      simp only [spec_drawdown_at, listMax]
      rcases i with _ | j
      · simp
      · simp [List.take_succ_cons, List.foldl_cons]
  · intro trades_history _
    exact drawdownLoop_nonneg _ _ _ (le_refl 0)
  · intro trades_history hchain
    unfold calculate_max_drawdown
    rcases hlist : trades_history.map Trade.balance_after with _ | ⟨b, rest⟩
    · rfl
    · rw [hlist] at hchain
      refine drawdownLoop_chain (b :: rest) b (List.chain_cons.mpr ⟨le_refl b, ?_⟩)
      exact hchain
  · norm_num [calculate_max_drawdown, drawdownLoop, tradesB]

theorem C8_witness :
    0 ≤ calculate_max_drawdown tradesB
    ∧ calculate_max_drawdown tradesUp = 0 := by
  refine ⟨C8_max_drawdown.2.1 tradesB (by simp [tradesB]), ?_⟩
  refine C8_max_drawdown.2.2.1 tradesUp ?_
  norm_num [tradesUp, List.chain'_cons]

/-! ### Claim C4: indicator ranges -/

theorem EF.div_nan_left (a : EF) : EF.div EF.nan a = EF.nan := by cases a <;> rfl

theorem gainAt_nonneg (closes : List ℚ) (i : ℕ) : 0 ≤ gainAt closes i := by
  unfold gainAt
  split
  · exact le_refl 0
  · dsimp only
    split
    · next h => exact le_of_lt h
    · exact le_refl 0

theorem lossAt_nonneg (closes : List ℚ) (i : ℕ) : 0 ≤ lossAt closes i := by
  unfold lossAt
  split
  · exact le_refl 0
  · dsimp only
    split
    · next h => linarith
    · exact le_refl 0

theorem calculate_RSI_range (bars : List Bar) (period : ℕ) (q : ℚ)
    (h : calculate_RSI bars period = EF.val q) : 0 ≤ q ∧ q ≤ 100 := by
  simp only [calculate_RSI, avg_gain, avg_loss] at h
  by_cases hlen : (bars.map Bar.close).length < period
  · rw [if_pos hlen, if_pos hlen] at h
    rw [EF.div_nan_left, EF.add_nan_right, EF.div_val_nan, EF.sub_val_nan] at h
    exact absurd h (by simp)
  · rw [if_neg hlen, if_neg hlen] at h
    set G := (((List.range period).map (fun j =>
      gainAt (bars.map Bar.close) ((bars.map Bar.close).length - period + j))).sum)
      / (period : ℚ) with hG
    set L := (((List.range period).map (fun j =>
      lossAt (bars.map Bar.close) ((bars.map Bar.close).length - period + j))).sum)
      / (period : ℚ) with hL
    have hGnn : 0 ≤ G := by
      refine div_nonneg (List.sum_nonneg ?_) (Nat.cast_nonneg period)
      intro x hx
      rcases List.mem_map.mp hx with ⟨j, -, rfl⟩
      exact gainAt_nonneg _ _
    have hLnn : 0 ≤ L := by
      refine div_nonneg (List.sum_nonneg ?_) (Nat.cast_nonneg period)
      intro x hx
      rcases List.mem_map.mp hx with ⟨j, -, rfl⟩
      exact lossAt_nonneg _ _
    rcases eq_or_lt_of_le hLnn with hL0 | hLpos
    · rcases eq_or_lt_of_le hGnn with hG0 | hGpos
      · have hdiv : EF.div (EF.val G) (EF.val L) = EF.nan := by
          simp only [EF.div]
          rw [if_pos hL0.symm, if_pos hG0.symm]
        rw [hdiv, EF.add_nan_right, EF.div_val_nan, EF.sub_val_nan] at h
        exact absurd h (by simp)
      · have hdiv : EF.div (EF.val G) (EF.val L) = EF.inf := by
          simp only [EF.div]
          rw [if_pos hL0.symm, if_neg (ne_of_gt hGpos), if_pos hGpos]
        rw [hdiv] at h
        have h2 : EF.add (EF.val 1) EF.inf = EF.inf := rfl
        have h3 : EF.div (EF.val 100) EF.inf = EF.val 0 := rfl
        have h4 : EF.sub (EF.val 100) (EF.val 0) = EF.val 100 := by
          show EF.val (100 + -0) = EF.val 100
          norm_num
        rw [h2, h3, h4] at h
        obtain rfl : (100 : ℚ) = q := (EF.val.injEq _ _).mp h
        norm_num
    · have hdiv : EF.div (EF.val G) (EF.val L) = EF.val (G / L) := by
        simp only [EF.div]
        rw [if_neg (ne_of_gt hLpos)]
      rw [hdiv] at h
      have hr : 0 ≤ G / L := div_nonneg hGnn (le_of_lt hLpos)
      have h1r : (0 : ℚ) < 1 + G / L := by linarith
      have hadd : EF.add (EF.val 1) (EF.val (G / L)) = EF.val (1 + G / L) := rfl
      rw [hadd] at h
      have hdiv2 : EF.div (EF.val 100) (EF.val (1 + G / L))
          = EF.val (100 / (1 + G / L)) := by
        simp only [EF.div]
        rw [if_neg (ne_of_gt h1r)]
      rw [hdiv2] at h
      have hsub : EF.sub (EF.val 100) (EF.val (100 / (1 + G / L)))
          = EF.val (100 - 100 / (1 + G / L)) := by
        show EF.val (100 + -(100 / (1 + G / L))) = _
        rw [← sub_eq_add_neg]
      rw [hsub] at h
      obtain rfl : 100 - 100 / (1 + G / L) = q := (EF.val.injEq _ _).mp h
      have hdpos : 0 < 100 / (1 + G / L) := by positivity
      have hdle : 100 / (1 + G / L) ≤ 100 := by
        rw [div_le_iff₀ h1r]
        nlinarith
      constructor <;> linarith

theorem getElem_mem_window (l : List ℚ) (n i : ℕ) (hn : 0 < n)
    (hi : i < l.length) : l[i] ∈ window n l i := by
  have hjlen : i - (i + 1 - n) < (window n l i).length := by
    simp only [window, List.length_drop, List.length_take]
    omega
  have hval : (window n l i).get ⟨i - (i + 1 - n), hjlen⟩ = l[i] := by
    simp only [List.get_eq_getElem, window]
    rw [List.getElem_drop]
    rw [List.getElem_take]
    congr 1
    omega
  rw [← hval]
  exact List.get_mem _ _ hjlen

theorem lowest_low_le_close (bars : List Bar) (n i : ℕ) (hn : 0 < n)
    (hi : i < bars.length) (hv : validBars bars) :
    lowest_low bars n i ≤ closeAt bars i := by
  have hil : i < (bars.map Bar.low).length := by simpa using hi
  have hmem := getElem_mem_window (bars.map Bar.low) n i hn hil
  have h1 : lowest_low bars n i ≤ (bars.map Bar.low)[i] := listMin_le_mem hmem
  rw [List.getElem_map] at h1
  have h2 : bars[i].low ≤ bars[i].close := (hv bars[i] (List.getElem_mem hi)).1
  have h3 : closeAt bars i = bars[i].close := by
    simp [closeAt, List.getD_eq_getElem?_getD, List.getElem?_eq_getElem hi]
  rw [h3]
  exact le_trans h1 h2

theorem close_le_highest_high (bars : List Bar) (n i : ℕ) (hn : 0 < n)
    (hi : i < bars.length) (hv : validBars bars) :
    closeAt bars i ≤ highest_high bars n i := by
  have hih : i < (bars.map Bar.high).length := by simpa using hi
  have hmem := getElem_mem_window (bars.map Bar.high) n i hn hih
  have h1 : (bars.map Bar.high)[i] ≤ highest_high bars n i := mem_le_listMax hmem
  rw [List.getElem_map] at h1
  have h2 : bars[i].close ≤ bars[i].high := (hv bars[i] (List.getElem_mem hi)).2
  have h3 : closeAt bars i = bars[i].close := by
    simp [closeAt, List.getD_eq_getElem?_getD, List.getElem?_eq_getElem hi]
  rw [h3]
  exact le_trans h2 h1

theorem rsv_val_range (bars : List Bar) (n i : ℕ) (hn : 0 < n)
    (hi : i < bars.length) (hv : validBars bars)
    (hnd : lowest_low bars n i < highest_high bars n i) :
    ∃ r, rsv bars n i = EF.val r ∧ 0 ≤ r ∧ r ≤ 100 := by
  have hlo := lowest_low_le_close bars n i hn hi hv
  have hhi := close_le_highest_high bars n i hn hi hv
  have hden : (0 : ℚ) < highest_high bars n i - lowest_low bars n i := by linarith
  refine ⟨(closeAt bars i - lowest_low bars n i)
      / (highest_high bars n i - lowest_low bars n i) * 100, ?_, ?_, ?_⟩
  · simp only [rsv, EF.div]
    rw [if_neg (ne_of_gt hden)]
    rfl
  · have := div_nonneg (by linarith : (0:ℚ) ≤ closeAt bars i - lowest_low bars n i)
      (le_of_lt hden)
    nlinarith
  · have hle1 : (closeAt bars i - lowest_low bars n i)
        / (highest_high bars n i - lowest_low bars n i) ≤ 1 :=
      (div_le_one hden).mpr (by linarith)
    nlinarith [div_nonneg (by linarith : (0:ℚ) ≤ closeAt bars i - lowest_low bars n i)
      (le_of_lt hden)]

theorem kdj_range (bars : List Bar) (hv : validBars bars)
    (hnd : nondegenerate bars 9) :
    ∀ i, i < bars.length → inRange100 (kdjK bars 9 i) ∧ inRange100 (kdjD bars 9 i)
  | 0, _ => ⟨⟨50, rfl, by norm_num⟩, ⟨50, rfl, by norm_num⟩⟩
  | i + 1, hi => by
      obtain ⟨⟨k, hk, hk0, hk100⟩, ⟨d, hd, hd0, hd100⟩⟩ :=
        kdj_range bars hv hnd i (by omega)
      obtain ⟨r, hr, hr0, hr100⟩ :=
        rsv_val_range bars 9 (i + 1) (by norm_num) hi hv (hnd (i + 1) hi)
      have hK1 : kdjK bars 9 (i + 1) = EF.val (2/3 * k + 1/3 * r) := by
        simp only [kdjK, hk, hr]
        rfl
      constructor
      · exact ⟨2/3 * k + 1/3 * r, hK1, by linarith, by linarith⟩
      · have hD1 : kdjD bars 9 (i + 1)
            = EF.val (2/3 * d + 1/3 * (2/3 * k + 1/3 * r)) := by
          simp only [kdjD, hd, hK1]
          rfl
        exact ⟨2/3 * d + 1/3 * (2/3 * k + 1/3 * r), hD1, by linarith, by linarith⟩

/-- C4 counterexample: the flat 30-bar series is a valid PriceSeries, yet
`calculate_RSI` does not return a value in `[0, 100]` on it — it returns
NaN. -/
theorem C4_counterexample_flat_rsi_outside_range :
    validBars flat30 ∧ ¬ inRange100 (calculate_RSI flat30) := by
  constructor
  · intro b hb
    rcases List.eq_of_mem_replicate hb with rfl
    exact ⟨le_refl _, le_refl _⟩
  · rw [rsi_flat30_eq_nan]
    rintro ⟨q, hq, -, -⟩
    exact EF.noConfusion hq

/-- C4 (amended): whenever `calculate_RSI` returns a finite value, that
value lies in `[0, 100]`; and on every nonempty valid series all of whose
KDJ rolling windows are non-degenerate, the K and D lines are finite
values in `[0, 100]`.  (On degenerate inputs — a flat window for KDJ, a
window with zero average gain and loss for RSI — the source produces NaN,
which lies in no range; those are the subjects of C5 and C6.) -/
theorem C4_indicator_ranges :
    (∀ (bars : List Bar) (period : ℕ) (q : ℚ),
      calculate_RSI bars period = EF.val q → 0 ≤ q ∧ q ≤ 100)
    ∧ (∀ bars : List Bar, bars ≠ [] → validBars bars →
        nondegenerate bars 9 →
        inRange100 (calculate_KDJ bars).1 ∧ inRange100 (calculate_KDJ bars).2) := by
  refine ⟨calculate_RSI_range, ?_⟩
  intro bars hne hv hnd
  have hlen : bars.length - 1 < bars.length := by
    cases bars with
    | nil => exact absurd rfl hne
    | cons b bs => simp
  exact kdj_range bars hv hnd (bars.length - 1) hlen

theorem C4_witness :
    ((0 : ℚ) ≤ 100 ∧ (100 : ℚ) ≤ 100)
    ∧ (inRange100 (calculate_KDJ demo2).1 ∧ inRange100 (calculate_KDJ demo2).2) := by
  constructor
  · refine C4_indicator_ranges.1 up15 14 100 ?_
    norm_num [calculate_RSI, avg_gain, avg_loss, gainAt, lossAt, up15,
      List.range_succ, EF.div, EF.add, EF.sub, EF.neg]
  · refine C4_indicator_ranges.2 demo2 (by simp [demo2]) ?_ ?_
    · intro b hb
      simp only [demo2, List.mem_cons, List.not_mem_nil, or_false] at hb
      rcases hb with rfl | rfl <;> norm_num
    · intro i hi
      simp only [demo2, List.length_cons, List.length_nil] at hi
      interval_cases i <;>
        norm_num [lowest_low, highest_high, window, listMin, listMax, demo2]
